import Mathlib

/-!
# Verification of the slackdump chunk record/replay engine

A shallow embedding, in Lean 4, of the `internal/chunk` package of
slackdump: the `Chunk` data model with its group-key derivation
(`chunk.go`), the offset index and the `Player` (`player.go`), the
`chunktest` replay server handlers, and the state ledger built from a
full scan.  Streams are modelled as lists of chunks; the byte offset of
a record is modelled by its record index (the byte-offset-to-record map
of a decodable stream is strictly monotone, so this relabelling is
faithful); Go maps are modelled as association lists; fallible
operations return `Except`; the mutable `Player` is threaded as
explicit state.
-/

deriving instance DecidableEq for Except

namespace Slackdump

/-- Payload message, the fields of `slack.Message` the engine reads:
`Timestamp` and `ThreadTimestamp`. -/
structure Message where
  timestamp : String := ""
  threadTimestamp : String := ""
  deriving DecidableEq, Repr, Inhabited

/-- Payload file, the field of `slack.File` the engine reads: `ID`. -/
structure SFile where
  id : String := ""
  deriving DecidableEq, Repr, Inhabited

/-- Payload user (`slack.User`), opaque to the engine. -/
structure User where
  id : String := ""
  deriving DecidableEq, Repr, Inhabited

/-- Payload channel (`slack.Channel`), opaque to the engine. -/
structure Channel where
  id : String := ""
  deriving DecidableEq, Repr, Inhabited

/-- Go type `ChunkType` is `uint8` in the source; we model it as `Nat`.
The named constants below mirror the `iota` block of `chunk.go`. -/
def CMessages : Nat := 0

def CThreadMessages : Nat := 1

def CFiles : Nat := 2

def CUsers : Nat := 3

def CChannels : Nat := 4

def CChannelInfo : Nat := 5

def CWorkspaceInfo : Nat := 6

def CChannelUsers : Nat := 7

def CStarredItems : Nat := 8

def CBookmarks : Nat := 9

/-- One captured record (`Chunk` in `chunk.go`).  `ctype` is the `Type`
field; `parent` is the `*slack.Message` pointer `Parent` (so an
`Option`); payload slices keep their source names. -/
structure Chunk where
  ctype : Nat := 0
  timestamp : Int := 0
  channelID : String := ""
  count : Int := 0
  threadTS : String := ""
  isLast : Bool := false
  numThreads : Int := 0
  channel : Option Channel := none
  channelUsers : List String := []
  parent : Option Message := none
  messages : List Message := []
  files : List SFile := []
  users : List User := []
  channels : List Channel := []
  deriving DecidableEq, Repr, Inhabited

/-- Field access `c.Parent.ThreadTimestamp`.  Go dereferences the pointer and would
panic on `nil`; we model the `nil` case as the empty timestamp (no
claim exercises it). -/
def Chunk.parentThreadTS (c : Chunk) : String :=
  (c.parent.getD default).threadTimestamp

/-- Field access `c.Parent.Timestamp` with the same `nil` convention. -/
def Chunk.parentTS (c : Chunk) : String :=
  (c.parent.getD default).timestamp

-- Static group-key constants of `chunk.go`.
def userChunkID : String := "lusr"

def channelChunkID : String := "lch"

def starredChunkID : String := "ls"

def wspInfoChunkID : String := "iw"

/-- Go function `strings.Join(ids, sep)` of the standard library. -/
def stringsJoin (sep : String) : List String → String
  | [] => ""
  | [x] => x
  | x :: xs => x ++ sep ++ stringsJoin sep xs

/-- The `id` helper of `chunk.go`: concatenate the category tag with the
colon-joined ids. -/
def idOf (tag : String) (ids : List String) : String :=
  tag ++ stringsJoin ":" ids

/-- Helper `threadID` of `chunk.go`: the tag is `"t"`. -/
def threadIDOf (channelID threadTS : String) : String :=
  idOf "t" [channelID, threadTS]

/-- Helper `channelInfoID` of `chunk.go`: the tag is `"ic"`. -/
def channelInfoIDOf (channelID : String) : String :=
  idOf "ic" [channelID]

/-- Helper `channelUsersID` of `chunk.go`: the tag is `"lcu"`. -/
def channelUsersIDOf (channelID : String) : String :=
  idOf "lcu" [channelID]

/-- String form of a `ChunkType`.  The `String()` method is generated by
`go:generate stringer -type=ChunkType -trimprefix=C`; the generated file
is not among the available sources, so this follows the documented
stringer output: the constant name without the `C` for in-range values,
`"ChunkType(n)"` otherwise. -/
def chunkTypeStr (t : Nat) : String :=
  if t = CMessages then "Messages"
  else if t = CThreadMessages then "ThreadMessages"
  else if t = CFiles then "Files"
  else if t = CUsers then "Users"
  else if t = CChannels then "Channels"
  else if t = CChannelInfo then "ChannelInfo"
  else if t = CWorkspaceInfo then "WorkspaceInfo"
  else if t = CChannelUsers then "ChannelUsers"
  else if t = CStarredItems then "StarredItems"
  else if t = CBookmarks then "Bookmarks"
  else "ChunkType(" ++ Nat.repr t ++ ")"

/-- Method `Chunk.ID` of `chunk.go`: the group-key derivation.  The Go `switch`
falls through to `fmt.Sprintf("<unknown:%s>", c.Type)` for a type
outside the enumeration — a sentinel string, not an error. -/
def Chunk.ID (c : Chunk) : String :=
  if c.ctype = CMessages then c.channelID
  else if c.ctype = CThreadMessages then threadIDOf c.channelID c.parentThreadTS
  else if c.ctype = CFiles then idOf "f" [c.channelID, c.parentTS]
  else if c.ctype = CChannelInfo then channelInfoIDOf c.channelID
  else if c.ctype = CChannelUsers then channelUsersIDOf c.channelID
  else if c.ctype = CUsers then userChunkID
  else if c.ctype = CChannels then channelChunkID
  else if c.ctype = CWorkspaceInfo then wspInfoChunkID
  else if c.ctype = CStarredItems then starredChunkID
  else if c.ctype = CBookmarks then idOf "lb" [c.channelID]
  else "<unknown:" ++ chunkTypeStr c.ctype ++ ">"

/-! ## The Player (`player.go`)

Go maps (`index`, `offsets`) are modelled as association lists; a map
read is `alookup`, a map write is `aset`, and the append-to-entry done
by `indexRecords` is `aAppend`.  Go map iteration order is unspecified,
which the source only relies on through a final `sort.Strings`, so the
insertion-ordered association list is a faithful model. -/

/-- Go map read `m[k]`. -/
def alookup (k : String) : List (String × α) → Option α
  | [] => none
  | (k', v) :: rest => if k' = k then some v else alookup k rest

/-- Go map write `m[k] = v`. -/
def aset (k : String) (v : α) : List (String × α) → List (String × α)
  | [] => [(k, v)]
  | (k', v') :: rest => if k' = k then (k', v) :: rest else (k', v') :: aset k v rest

/-- Map update `idx[k] = append(idx[k], off)` of `indexRecords`. -/
def aAppend (k : String) (off : Nat) : List (String × List Nat) → List (String × List Nat)
  | [] => [(k, [off])]
  | (k', vs) :: rest =>
    if k' = k then (k', vs ++ [off]) :: rest else (k', vs) :: aAppend k off rest

/-- Type `index` of `player.go`: chunk group key to the ordered offsets of its
records. -/
abbrev Index := List (String × List Nat)

/-- Type `offsets` of `player.go`: the per-key cursor table. -/
abbrev Offsets := List (String × Nat)

/-- The loop body of `indexRecords`: decode records in order, recording
the offset (record index) of each under its group key. -/
def indexGo (i : Nat) (idx : Index) : List Chunk → Index
  | [] => idx
  | c :: cs => indexGo (i + 1) (aAppend c.ID i idx) cs

/-- Function `indexRecords` of `player.go` on a fully decodable stream. -/
def indexRecords (stream : List Chunk) : Index :=
  indexGo 0 [] stream

/-- Type `Player` of `player.go`.  The `io.ReadSeeker` is the decoded record
list `stream`; a seek-plus-decode at offset `o` is `stream.get? o`
(out-of-range models a seek/decode failure). -/
structure Player where
  stream : List Chunk
  idx : Index
  pointer : Offsets
  lastOffset : Nat := 0
  deriving DecidableEq, Repr

/-- Constructor `NewPlayer`: index the stream, start with an empty cursor table. -/
def newPlayer (stream : List Chunk) : Player :=
  { stream := stream, idx := indexRecords stream, pointer := [] }

/-- Errors a `Player` read can surface: `ErrNotFound`, `io.EOF` (the
exhaustion signal, see `tryGetChunk`'s doc and `TestPlayer_Thread`), and
a seek/decode failure wrapped with the offending offset. -/
inductive PErr where
  | notFound
  | eof
  | decodeFail (off : Nat)
  deriving DecidableEq, Repr

/-- Lines 102–105 of `player.go`: initialise the cursor to 0 when the
key is seen for the first time. -/
def pointerInit (p : Player) (id : String) : Player :=
  match alookup id p.pointer with
  | none => { p with pointer := aset id 0 p.pointer }
  | some _ => p

/-- Method `tryGetChunk` of `player.go`, as a state transition.  Mirrors the
source line by line: missing key fails `ErrNotFound`; the cursor is
initialised to 0 on first sight; a cursor at or past the end of the
offset list fails `io.EOF` (`ptr >= len(offsets)` is exactly
`offs[ptr]? = none`); otherwise store `lastOffset`, seek and decode at
the offset, and only then advance the cursor. -/
def tryGetChunk (p : Player) (id : String) : Except PErr Chunk × Player :=
  match alookup id p.idx with
  | none => (Except.error .notFound, p)
  | some offs =>
    let p1 : Player := pointerInit p id
    let ptr : Nat := (alookup id p.pointer).getD 0
    match offs[ptr]? with
    | none => (Except.error .eof, p1)
    | some off =>
      let p2 : Player := { p1 with lastOffset := off }
      match p2.stream[off]? with
      | none => (Except.error (.decodeFail off), p2)
      | some c => (Except.ok c, { p2 with pointer := aset id (ptr + 1) p2.pointer })

/-- Method `hasMore` of `player.go`. -/
def hasMore (p : Player) (id : String) : Bool :=
  match alookup id p.idx with
  | none => false
  | some offs =>
    match alookup id p.pointer with
    | none => true
    | some ptr => ptr < offs.length

/-- Method `Reset`: clear the cursor table (the seek to 0 has no observable
effect in this model, every read seeks first). -/
def reset (p : Player) : Player :=
  { p with pointer := [] }

/-- The `for` loop of `allForID`, with fuel.  The loop exits through the
`io.EOF` branch; the fuel passed by `allForID` strictly exceeds the
number of records of any key, so the fuel-exhausted base case is
unreachable there. -/
def drainGo (fn : Chunk → List α) (id : String) :
    Nat → Player → List α → Except PErr (List α) × Player
  | 0, p, acc => (Except.ok acc, p)
  | fuel + 1, p, acc =>
    match tryGetChunk p id with
    | (Except.ok c, p') => drainGo fn id fuel p' (acc ++ fn c)
    | (Except.error .eof, p') => (Except.ok acc, p')
    | (Except.error e, p') => (Except.error e, p')

/-- Function `allForID` of `player.go`: reset, then repeatedly `tryGetChunk` for
the key until `io.EOF`, concatenating the projected payload slices. -/
def allForID (fn : Chunk → List α) (p : Player) (id : String) :
    Except PErr (List α) × Player :=
  drainGo fn id (p.stream.length + 1) (reset p) []

/-- Byte-lexicographic order of `sort.Strings`, on character lists (the
keys here are ASCII, where the two orders agree). -/
def charListLe : List Char → List Char → Bool
  | [], _ => true
  | _ :: _, [] => false
  | a :: as, b :: bs => if a = b then charListLe as bs else decide (a < b)

/-- Insertion of `sort.Strings`' semantics: stable sorted insert. -/
def sortInsert (x : String) : List String → List String
  | [] => [x]
  | y :: ys => if charListLe x.data y.data then x :: y :: ys else y :: sortInsert x ys

/-- Go's `sort.Strings`, modelled as insertion sort. -/
def sortStrings (l : List String) : List String :=
  l.foldr sortInsert []

/-- Method `AllChannelIDs` of `player.go`: keep the index keys that contain no
colon (`strings.Contains(id, ":")`) and do not start with `"ci"`
(`strings.HasPrefix(id, "ci")`), then sort.  Both predicates are taken
character-wise on `data`, which agrees with Go's byte-wise reading on
these ASCII keys. -/
def allChannelIDs (p : Player) : List String :=
  sortStrings ((p.idx.map Prod.fst).filter
    (fun id => !(id.data.contains ':') && !(("ci" : String).data.isPrefixOf id.data)))

/-! ## Typed accessors and the replay harness (`chunktest` server) -/

/-- Accessor `Player.Messages`: next message chunk for the channel, projected. -/
def playerMessages (p : Player) (channelID : String) :
    Except PErr (List Message) × Player :=
  match tryGetChunk p channelID with
  | (Except.ok c, p') => (Except.ok c.messages, p')
  | (Except.error e, p') => (Except.error e, p')

/-- Accessor `Player.Thread`: next thread chunk for `(channel, threadTS)`. -/
def playerThread (p : Player) (channelID threadTS : String) :
    Except PErr (List Message) × Player :=
  match tryGetChunk p (threadIDOf channelID threadTS) with
  | (Except.ok c, p') => (Except.ok c.messages, p')
  | (Except.error e, p') => (Except.error e, p')

/-- Accessor `Player.Users`: next users chunk. -/
def playerUsers (p : Player) : Except PErr (List User) × Player :=
  match tryGetChunk p userChunkID with
  | (Except.ok c, p') => (Except.ok c.users, p')
  | (Except.error e, p') => (Except.error e, p')

/-- Accessor `Player.Channels`: next channels chunk. -/
def playerChannels (p : Player) : Except PErr (List Channel) × Player :=
  match tryGetChunk p channelChunkID with
  | (Except.ok c, p') => (Except.ok c.channels, p')
  | (Except.error e, p') => (Except.error e, p')

/-- Accessor `Player.ChannelInfo`: next channel-info chunk for the
channel, projecting the `Channel` field.  The source addresses it as
`channelInfoID(id, false)` while `chunk.go` declares `channelInfoID`
with the channel id alone; following the one defined derivation, the
key is the info key `"ic" + id`.  The Go `*ci` dereference would panic
on a nil `Channel`; the nil case is modelled as the default channel (no
claim exercises it). -/
def playerChannelInfo (p : Player) (id : String) :
    Except PErr Channel × Player :=
  match tryGetChunk p (channelInfoIDOf id) with
  | (Except.ok c, p') => (Except.ok (c.channel.getD default), p')
  | (Except.error e, p') => (Except.error e, p')

/-- Accessor `Player.HasMoreThreads`. -/
def hasMoreThreads (p : Player) (channelID threadTS : String) : Bool :=
  hasMore p (threadIDOf channelID threadTS)

/-- Message text `err.Error()` for the player errors.  For a decode failure the Go
message wraps the inner decoder error; the model keeps the stable
leading text with the offending offset. -/
def errString : PErr → String
  | .notFound => "not found"
  | .eof => "EOF"
  | .decodeFail off => "failed to decode chunk at offset " ++ Nat.repr off

/-- Envelope core `slack.SlackResponse`: the `ok` flag and `error` string of every
envelope. -/
structure SlackResponse where
  ok : Bool := true
  error : String := ""
  deriving DecidableEq, Repr

/-- Body of `slack.GetConversationHistoryResponse` as the handler fills
it. -/
structure HistoryResponse where
  sr : SlackResponse := {}
  hasMore : Bool := false
  messages : List Message := []
  nextCursor : String := ""
  deriving DecidableEq, Repr

/-- Body of `GetConversationRepliesResponse` (`chunktest`). -/
structure RepliesResponse where
  sr : SlackResponse := {}
  hasMore : Bool := false
  messages : List Message := []
  nextCursor : String := ""
  deriving DecidableEq, Repr

/-- Body of `userResponseFull` as `handleUsersList` fills it. -/
structure UsersResponse where
  sr : SlackResponse := {}
  users : List User := []
  deriving DecidableEq, Repr

/-- Body of `channelResponseFull` as `handleConversationsInfo` fills
it. -/
structure ChannelInfoResponse where
  sr : SlackResponse := {}
  channel : Channel := {}
  deriving DecidableEq, Repr

/-- Body of `channelResponse` as `handleConversationsList` fills it. -/
structure ChannelsResponse where
  sr : SlackResponse := {}
  cursor : String := ""
  channels : List Channel := []
  deriving DecidableEq, Repr

/-- What an emulated endpoint writes back: `http.NotFound` (404),
`http.Error` with `StatusBadRequest` or `StatusInternalServerError`,
or an encoded JSON envelope (HTTP 200). -/
inductive HttpReply (α : Type) where
  | notFound404
  | badRequest (msg : String)
  | serverError (msg : String)
  | body (resp : α)
  deriving DecidableEq, Repr

/-- Handler `handleConversationsHistory` of `chunktest`. -/
def handleConversationsHistory (p : Player) (channel : String) :
    HttpReply HistoryResponse × Player :=
  if channel = "" then (.notFound404, p)
  else
    match playerMessages p channel with
    | (Except.error e, p') =>
      if e = .notFound then (.notFound404, p')
      else if e = .eof then
        (.body { sr := { ok := true }, hasMore := false }, p')
      else (.serverError (errString e), p')
    | (Except.ok msg, p') =>
      (.body { sr := { ok := true }, hasMore := hasMore p' channel,
               messages := msg, nextCursor := Nat.repr p'.lastOffset }, p')

/-- Handler `handleConversationsReplies` of `chunktest`.  Note that every error
from `Player.Thread`, `io.EOF` and `ErrNotFound` alike, is answered with
an HTTP 200 envelope whose `ok` field is `false`. -/
def handleConversationsReplies (p : Player) (channel timestamp : String) :
    HttpReply RepliesResponse × Player :=
  if timestamp = "" then (.badRequest "ts is required", p)
  else
    match playerThread p channel timestamp with
    | (Except.ok msg, p') =>
      (.body { sr := { ok := true }, hasMore := hasMoreThreads p' channel timestamp,
               messages := msg, nextCursor := Nat.repr p'.lastOffset }, p')
    | (Except.error e, p') =>
      let sr : SlackResponse :=
        if e = .eof then
          { ok := false,
            error := "thread_not_found[" ++ channel ++ ":" ++ timestamp ++ "]" }
        else { ok := false, error := errString e }
      (.body { sr := sr, hasMore := hasMoreThreads p' channel timestamp,
               messages := [], nextCursor := Nat.repr p'.lastOffset }, p')

/-- Handler `handleUsersList` of `chunktest`.  `io.EOF` is answered with an
`ok := false` envelope; every other error, `ErrNotFound` included, with
HTTP 500. -/
def handleUsersList (p : Player) : HttpReply UsersResponse × Player :=
  match playerUsers p with
  | (Except.ok u, p') => (.body { sr := { ok := true }, users := u }, p')
  | (Except.error e, p') =>
    if e = .eof then
      (.body { sr := { ok := false, error := "pagination complete" } }, p')
    else (.serverError (errString e), p')

/-- Handler `handleConversationsInfo` of `chunktest`: a missing channel
parameter is answered HTTP 400, `ErrNotFound` with `http.NotFound`
(404), and every other error — `io.EOF` included — with HTTP 500. -/
def handleConversationsInfo (p : Player) (channel : String) :
    HttpReply ChannelInfoResponse × Player :=
  if channel = "" then (.badRequest "channel is required", p)
  else
    match playerChannelInfo p channel with
    | (Except.error e, p') =>
      if e = .notFound then (.notFound404, p')
      else (.serverError (errString e), p')
    | (Except.ok ci, p') =>
      (.body { sr := { ok := true }, channel := ci }, p')

/-- Handler `handleConversationsList` of `chunktest`: same shape as
`handleUsersList`, with the cursor field `"moar"` on success and empty
on `io.EOF`. -/
def handleConversationsList (p : Player) : HttpReply ChannelsResponse × Player :=
  match playerChannels p with
  | (Except.ok c, p') =>
    (.body { sr := { ok := true }, cursor := "moar", channels := c }, p')
  | (Except.error e, p') =>
    if e = .eof then
      (.body { sr := { ok := false }, cursor := "", channels := [] }, p')
    else (.serverError (errString e), p')

/-! ## The state ledger -/

/-- Modelled from the spec: the `state` package
(`internal/chunk/state`, with `state.New`, `AddMessage`, `AddThread`,
`AddFile`) is not among the available sources; per the spec the ledger
is three sets — captured message timestamps per channel, captured
thread-message timestamps per (channel, thread), and captured file
identifiers per channel with a local-path annotation, initially
unknown/empty. -/
structure StateLedger where
  messages : List (String × String) := []
  threads : List ((String × String) × String) := []
  files : List (String × String × String) := []
  deriving DecidableEq, Repr

/-- Modelled from the spec: `State.AddMessage` records a message
timestamp under its channel. -/
def StateLedger.addMessage (s : StateLedger) (channelID ts : String) : StateLedger :=
  { s with messages := (channelID, ts) :: s.messages }

/-- Modelled from the spec: `State.AddThread` records a reply timestamp
under its (channel, parent-thread) pair. -/
def StateLedger.addThread (s : StateLedger) (channelID parentTS ts : String) : StateLedger :=
  { s with threads := ((channelID, parentTS), ts) :: s.threads }

/-- Modelled from the spec: `State.AddFile` records a file identifier
under its channel together with the local path annotation. -/
def StateLedger.addFile (s : StateLedger) (channelID fileID path : String) : StateLedger :=
  { s with files := (channelID, fileID, path) :: s.files }

/-- The callback body of `Player.State` (`player.go`): for a `CFiles`
chunk add each file with the empty path, for a `CThreadMessages` chunk
add each reply under `(ChannelID, Parent.ThreadTimestamp)`, for a
`CMessages` chunk add each message timestamp under `ChannelID`. -/
def stateStep (s : StateLedger) (ev : Chunk) : StateLedger :=
  let s1 :=
    if ev.ctype = CFiles then
      ev.files.foldl (fun a f => a.addFile ev.channelID f.id "") s
    else s
  let s2 :=
    if ev.ctype = CThreadMessages then
      ev.messages.foldl
        (fun a m => a.addThread ev.channelID ev.parentThreadTS m.timestamp) s1
    else s1
  if ev.ctype = CMessages then
    ev.messages.foldl (fun a m => a.addMessage ev.channelID m.timestamp) s2
  else s2

/-- Method `Player.State`: `ForEach` decodes the whole stream in file order and
feeds every record to the callback (the model's streams carry no `null`
records, so the `ev == nil` guard never fires). -/
def buildState (stream : List Chunk) : StateLedger :=
  stream.foldl stateStep {}

/-! ## Auxiliary definitions used by the statements -/

/-- The key's current cursor position: Go's zero-value convention makes
an absent cursor read as position 0. -/
def cursorPos (p : Player) (g : String) : Nat :=
  (alookup g p.pointer).getD 0

/-- Proof device: the positions, counted from `i`, of the records of a
stream whose group key is `g` — what the index is supposed to hold. -/
def posOf (g : String) (i : Nat) : List Chunk → List Nat
  | [] => []
  | c :: cs => if c.ID = g then i :: posOf g (i + 1) cs else posOf g (i + 1) cs

/-- Proof device: read the records of a stream at a list of offsets,
failing if any offset is unreadable. -/
def readAll (base : List Chunk) : List Nat → Option (List Chunk)
  | [] => some []
  | o :: os =>
    match base[o]? with
    | none => none
    | some c => (readAll base os).map (fun l => c :: l)

/-- Realistic conversation id: nonempty, starting with the service's
conversation-prefix letter (`C`, `D` or `G`), containing no colon. -/
def isGoodChannelID (s : String) : Bool :=
  decide (s.data.head? = some 'C' ∨ s.data.head? = some 'D' ∨
    s.data.head? = some 'G') && decide (':' ∉ s.data)

/-- The four types whose group key is a static constant. -/
def isStaticType (t : Nat) : Bool :=
  decide (t = CUsers ∨ t = CChannels ∨ t = CWorkspaceInfo ∨ t = CStarredItems)

/-- The addressing fields of a chunk: its type, its channel id, and the
per-type parent timestamp (thread root for `ThreadMessages`, parent
message timestamp for `Files`, unused otherwise). -/
def addrOf (c : Chunk) : Nat × String × String :=
  (c.ctype, c.channelID,
    if c.ctype = CThreadMessages then c.parentThreadTS
    else if c.ctype = CFiles then c.parentTS
    else "")

/-- Proof device: split a character list at its first colon. -/
def splitAtColon : List Char → List Char × List Char
  | [] => ([], [])
  | c :: cs =>
    if c = ':' then ([], cs)
    else (c :: (splitAtColon cs).1, (splitAtColon cs).2)

/-- Proof device: parse a group key back into the addressing fields it
was derived from, for well-formed channel ids. -/
def decodeKey (l : List Char) : Option (Nat × List Char × List Char) :=
  match l with
  | [] => none
  | a :: rest =>
    if a = 'C' ∨ a = 'D' ∨ a = 'G' then some (0, a :: rest, [])
    else if a = 't' then some (1, splitAtColon rest)
    else if a = 'f' then some (2, splitAtColon rest)
    else if a = 'i' then
      match rest with
      | 'c' :: rest2 => some (5, rest2, [])
      | _ => none
    else if a = 'l' then
      match rest with
      | 'c' :: 'u' :: rest2 => some (7, rest2, [])
      | 'b' :: rest2 => some (9, rest2, [])
      | _ => none
    else none

/-! ## Concrete fixtures -/

/-- A thread record: channel `C1`, thread root timestamp `1000.001`,
two replies. -/
def threadChunk1 : Chunk :=
  { ctype := CThreadMessages, channelID := "C1",
    parent := some { timestamp := "1000.001", threadTimestamp := "1000.001" },
    messages := [{ timestamp := "1000.100" }, { timestamp := "1000.200" }] }

/-- A chunk whose `Type` (10) is outside the enumeration. -/
def unknownChunk : Chunk := { ctype := 10 }

/-- A player whose single `C1` message record is already consumed. -/
def playerExhaustedC1 : Player :=
  { stream := [{ ctype := CMessages, channelID := "C1" }],
    idx := [("C1", [0])], pointer := [("C1", 1)] }

/-- A small recorded stream: two `C1` message records around an
unrelated thread record. -/
def roundTripStream : List Chunk :=
  [{ ctype := CMessages, channelID := "C1", messages := [{ timestamp := "1.0" }] },
   { ctype := CThreadMessages, channelID := "C2",
     parent := some { threadTimestamp := "7.0" },
     messages := [{ timestamp := "7.1" }] },
   { ctype := CMessages, channelID := "C1",
     messages := [{ timestamp := "2.0" }, { timestamp := "3.0" }] }]

/-- A log with one Messages, one ChannelInfo and one Users record: its
index holds the keys `C1`, `icC1` and `lusr`. -/
def mixedStream : List Chunk :=
  [{ ctype := CMessages, channelID := "C1", messages := [{ timestamp := "1.0" }] },
   { ctype := CChannelInfo, channelID := "C1" },
   { ctype := CUsers, users := [{ id := "U1" }] }]

/-- Scenario C: first Messages record for channel `C1`. -/
def msgsC1a : Chunk :=
  { ctype := CMessages, channelID := "C1", messages := [{ timestamp := "1.0" }] }

/-- Scenario C: second Messages record for channel `C1`. -/
def msgsC1b : Chunk :=
  { ctype := CMessages, channelID := "C1", messages := [{ timestamp := "2.0" }] }

/-- Scenario C: Files record for channel `C1` with file id `F1`. -/
def filesC1 : Chunk :=
  { ctype := CFiles, channelID := "C1",
    parent := some { timestamp := "1.0" }, files := [{ id := "F1" }] }

/-- Scenario C's log: two Messages records and one Files record. -/
def scenarioCStream : List Chunk := [msgsC1a, msgsC1b, filesC1]

/-- A player whose single users record is already consumed. -/
def playerUsersExhausted : Player :=
  { stream := [{ ctype := CUsers, users := [{ id := "U1" }] }],
    idx := [("lusr", [0])], pointer := [("lusr", 1)] }

/-- A player over an empty log. -/
def emptyPlayer : Player := { stream := [], idx := [], pointer := [] }

/-- A messages chunk whose channel id happens to look like a thread key. -/
def collidingMessages : Chunk := { ctype := CMessages, channelID := "tA:B" }

/-- A thread chunk colliding with `collidingMessages`. -/
def collidingThread : Chunk :=
  { ctype := CThreadMessages, channelID := "A",
    parent := some { threadTimestamp := "B" } }

/-! ## Helper lemmas -/

theorem alookup_aset_self (k : String) (v : α) (l : List (String × α)) :
    alookup k (aset k v l) = some v := by
  induction l with
  | nil => simp [aset, alookup]
  | cons kv rest ih =>
    obtain ⟨k', v'⟩ := kv
    by_cases h : k' = k <;> simp [aset, alookup, h, ih]

theorem alookup_aAppend_self (k : String) (v : Nat) (l : Index) :
    alookup k (aAppend k v l) = some ((alookup k l).getD [] ++ [v]) := by
  induction l with
  | nil => simp [aAppend, alookup]
  | cons kv rest ih =>
    obtain ⟨k', vs⟩ := kv
    by_cases h : k' = k <;> simp [aAppend, alookup, h, ih]

theorem alookup_aAppend_ne (k g : String) (v : Nat) (l : Index) (h : k ≠ g) :
    alookup g (aAppend k v l) = alookup g l := by
  induction l with
  | nil => simp [aAppend, alookup, h]
  | cons kv rest ih =>
    obtain ⟨k', vs⟩ := kv
    by_cases h2 : k' = k
    · subst h2
      simp [aAppend, alookup, h]
    · by_cases h3 : k' = g
      · subst h3
        simp [aAppend, alookup, Ne.symm h, ih]
      · simp [aAppend, alookup, h2, h3, ih]

theorem alookup_indexGo_getD (g : String) (cs : List Chunk) :
    ∀ (i : Nat) (idx : Index),
      (alookup g (indexGo i idx cs)).getD [] =
        (alookup g idx).getD [] ++ posOf g i cs := by
  induction cs with
  | nil => intro i idx; simp [indexGo, posOf]
  | cons c cs ih =>
    intro i idx
    by_cases h : c.ID = g
    · rw [indexGo, posOf, if_pos h, ih, h, alookup_aAppend_self]
      simp
    · rw [indexGo, posOf, if_neg h, ih, alookup_aAppend_ne c.ID g i idx h]

theorem alookup_indexGo_eq_none (g : String) (cs : List Chunk) :
    ∀ (i : Nat) (idx : Index),
      (alookup g (indexGo i idx cs) = none ↔
        (alookup g idx = none ∧ posOf g i cs = [])) := by
  induction cs with
  | nil => intro i idx; simp [indexGo, posOf]
  | cons c cs ih =>
    intro i idx
    by_cases h : c.ID = g
    · rw [indexGo, posOf, if_pos h, ih, h, alookup_aAppend_self]
      simp
    · rw [indexGo, posOf, if_neg h, ih, alookup_aAppend_ne c.ID g i idx h]

/-- The index lists exactly the positions of the records with key `g`,
in file order. -/
theorem alookup_indexRecords (g : String) (s : List Chunk)
    (h : posOf g 0 s ≠ []) :
    alookup g (indexRecords s) = some (posOf g 0 s) := by
  unfold indexRecords
  have h1 := alookup_indexGo_getD g s 0 []
  rcases hl : alookup g (indexGo 0 [] s) with _ | v
  · exact absurd ((alookup_indexGo_eq_none g s 0 []).mp hl).2 h
  · rw [hl] at h1
    simp [alookup] at h1
    rw [h1]

theorem posOf_length_le (g : String) (s : List Chunk) :
    ∀ i, (posOf g i s).length ≤ s.length := by
  induction s with
  | nil => intro i; simp [posOf]
  | cons c cs ih =>
    intro i
    by_cases h : c.ID = g <;> simp [posOf, h] <;> have := ih (i + 1) <;> omega

theorem posOf_ne_nil (g : String) (s : List Chunk) (c : Chunk)
    (hc : c ∈ s) (hg : c.ID = g) : ∀ i, posOf g i s ≠ [] := by
  induction s with
  | nil => cases hc
  | cons d ds ih =>
    intro i
    rcases List.mem_cons.mp hc with h | h
    · subst h
      simp [posOf, hg]
    · by_cases hd : d.ID = g <;> simp [posOf, hd]
      exact ih h (i + 1)

/-- Reading the indexed positions back recovers exactly the records
with that key, in order. -/
theorem readAll_posOf (g : String) (s : List Chunk) :
    ∀ (i : Nat) (base : List Chunk), (∀ o : Nat, base[i + o]? = s[o]?) →
      readAll base (posOf g i s) = some (s.filter (fun c => c.ID = g)) := by
  induction s with
  | nil => intro i base _; simp [posOf, readAll]
  | cons c cs ih =>
    intro i base hbase
    have hc : base[i]? = some c := by
      have h0 := hbase 0
      simpa using h0
    have hbase' : ∀ o : Nat, base[(i + 1) + o]? = cs[o]? := by
      intro o
      have h1 := hbase (o + 1)
      rw [show i + (o + 1) = i + 1 + o by omega] at h1
      simpa [List.getElem?_cons_succ] using h1
    by_cases h : c.ID = g
    · rw [posOf, if_pos h, readAll, hc, ih (i + 1) base hbase',
        List.filter_cons_of_pos (by simp [h])]
      rfl
    · rw [posOf, if_neg h, ih (i + 1) base hbase',
        List.filter_cons_of_neg (by simp [h])]

theorem pointerInit_idx (p : Player) (g : String) :
    (pointerInit p g).idx = p.idx := by
  unfold pointerInit
  rcases alookup g p.pointer <;> rfl

theorem pointerInit_stream (p : Player) (g : String) :
    (pointerInit p g).stream = p.stream := by
  unfold pointerInit
  rcases alookup g p.pointer <;> rfl

/-- After initialisation the cursor is present and reads the same
effective position as before. -/
theorem pointerInit_lookup (p : Player) (g : String) :
    alookup g (pointerInit p g).pointer = some (cursorPos p g) := by
  unfold pointerInit cursorPos
  rcases h : alookup g p.pointer with _ | ptr <;> simp [h, alookup_aset_self]

theorem pointerInit_cursorPos (p : Player) (g : String) :
    cursorPos (pointerInit p g) g = cursorPos p g := by
  have := pointerInit_lookup p g
  unfold cursorPos at *
  simp [this]

/-- Branch lemma: `tryGetChunk`, not-found case. -/
theorem tryGetChunk_notFound (p : Player) (g : String)
    (hidx : alookup g p.idx = none) :
    tryGetChunk p g = (Except.error .notFound, p) := by
  unfold tryGetChunk
  simp [hidx]

/-- Branch lemma: `tryGetChunk`, exhaustion case. -/
theorem tryGetChunk_eof (p : Player) (g : String) (offs : List Nat)
    (hidx : alookup g p.idx = some offs)
    (hget : offs[cursorPos p g]? = none) :
    tryGetChunk p g = (Except.error .eof, pointerInit p g) := by
  unfold tryGetChunk
  unfold cursorPos at hget
  simp [hidx, hget]

/-- Branch lemma: `tryGetChunk`, seek/decode-failure case. -/
theorem tryGetChunk_decodeFail (p : Player) (g : String) (offs : List Nat)
    (off : Nat) (hidx : alookup g p.idx = some offs)
    (hget : offs[cursorPos p g]? = some off)
    (hc : p.stream[off]? = none) :
    tryGetChunk p g =
      (Except.error (.decodeFail off), { pointerInit p g with lastOffset := off }) := by
  unfold tryGetChunk
  unfold cursorPos at hget
  simp [hidx, hget, pointerInit_stream, hc]

/-- Branch lemma: `tryGetChunk`, success case. -/
theorem tryGetChunk_ok (p : Player) (g : String) (offs : List Nat)
    (off : Nat) (c : Chunk) (hidx : alookup g p.idx = some offs)
    (hget : offs[cursorPos p g]? = some off)
    (hc : p.stream[off]? = some c) :
    tryGetChunk p g =
      (Except.ok c,
        { pointerInit p g with
          pointer := aset g (cursorPos p g + 1) (pointerInit p g).pointer,
          lastOffset := off }) := by
  unfold tryGetChunk
  unfold cursorPos at hget ⊢
  simp [hidx, hget, pointerInit_stream, hc]

/-- The drain loop of `allForID`: starting at cursor `ptr` with enough
fuel, it concatenates the projections of the records at the remaining
offsets onto the accumulator. -/
theorem drainGo_fst {α : Type} (fn : Chunk → List α) (id : String) (offs : List Nat) :
    ∀ (fuel ptr : Nat) (p : Player) (acc : List α) (l : List Chunk),
      alookup id p.idx = some offs →
      (alookup id p.pointer = some ptr ∨ (alookup id p.pointer = none ∧ ptr = 0)) →
      readAll p.stream (offs.drop ptr) = some l →
      (offs.drop ptr).length < fuel →
      (drainGo fn id fuel p acc).1 = Except.ok (acc ++ (l.map fn).flatten) := by
  intro fuel
  induction fuel with
  | zero => intro ptr p acc l _ _ _ hf; omega
  | succ n ihn =>
    intro ptr p acc l hidx hptr hread hf
    have hcur : cursorPos p id = ptr := by
      rcases hptr with h | ⟨h, rfl⟩ <;> simp [cursorPos, h]
    rcases hoff : offs[ptr]? with _ | off
    · have hdrop : offs.drop ptr = [] := by
        rw [List.drop_eq_nil_iff]
        simpa using List.getElem?_eq_none_iff.mp hoff
      rw [hdrop] at hread
      simp [readAll] at hread
      subst hread
      have heq := tryGetChunk_eof p id offs hidx (by rw [hcur]; exact hoff)
      rw [drainGo, heq]
      simp
    · have hlt : ptr < offs.length := (List.getElem?_eq_some.mp hoff).1
      have hdrop : offs.drop ptr = off :: offs.drop (ptr + 1) := by
        rw [List.drop_eq_getElem_cons hlt, (List.getElem?_eq_some.mp hoff).2]
      rw [hdrop] at hread hf
      rcases hs : p.stream[off]? with _ | c
      · rw [readAll, hs] at hread
        simp at hread
      · rw [readAll, hs] at hread
        rcases hrest : readAll p.stream (offs.drop (ptr + 1)) with _ | l'
        · rw [hrest] at hread
          simp at hread
        · rw [hrest] at hread
          simp at hread
          have hok := tryGetChunk_ok p id offs off c hidx (by rw [hcur]; exact hoff) hs
          rw [drainGo, hok]
          have hrec := ihn (ptr + 1)
            { pointerInit p id with
              pointer := aset id (cursorPos p id + 1) (pointerInit p id).pointer,
              lastOffset := off }
            (acc ++ fn c) l'
            (by rw [show ({ pointerInit p id with
                  pointer := aset id (cursorPos p id + 1) (pointerInit p id).pointer,
                  lastOffset := off } : Player).idx = (pointerInit p id).idx from rfl,
                pointerInit_idx]
                exact hidx)
            (Or.inl (by rw [hcur]; exact alookup_aset_self id (ptr + 1) _))
            (by rw [show ({ pointerInit p id with
                  pointer := aset id (cursorPos p id + 1) (pointerInit p id).pointer,
                  lastOffset := off } : Player).stream = (pointerInit p id).stream from rfl,
                pointerInit_stream]
                exact hrest)
            (by simp only [List.length_cons] at hf; omega)
          rw [hrec, ← hread]
          simp


theorem goodChannelID_head (s : String) (h : isGoodChannelID s = true) :
    s.data.head? = some 'C' ∨ s.data.head? = some 'D' ∨
      s.data.head? = some 'G' := by
  unfold isGoodChannelID at h
  rw [Bool.and_eq_true] at h
  exact of_decide_eq_true h.1

theorem goodChannelID_no_colon (s : String) (h : isGoodChannelID s = true) :
    ':' ∉ s.data := by
  unfold isGoodChannelID at h
  rw [Bool.and_eq_true] at h
  exact of_decide_eq_true h.2

theorem nonstatic_cases (t : Nat) (hlt : t < 10) (hs : isStaticType t = false) :
    t = 0 ∨ t = 1 ∨ t = 2 ∨ t = 5 ∨ t = 7 ∨ t = 9 := by
  unfold isStaticType at hs
  simp [CUsers, CChannels, CWorkspaceInfo, CStarredItems] at hs
  omega

theorem splitAtColon_append (l r : List Char) (h : ':' ∉ l) :
    splitAtColon (l ++ ':' :: r) = (l, r) := by
  induction l with
  | nil => simp [splitAtColon]
  | cons a as ih =>
    have ha : a ≠ ':' := fun he => h (by simp [he])
    have h' : ':' ∉ as := fun hm => h (by simp [hm])
    simp [splitAtColon, ha, ih h']

theorem keyData_messages (c : Chunk) (h : c.ctype = CMessages) :
    c.ID.data = c.channelID.data := by
  simp [Chunk.ID, h, CMessages]

theorem keyData_threads (c : Chunk) (h : c.ctype = CThreadMessages) :
    c.ID.data = 't' :: (c.channelID.data ++ ':' :: c.parentThreadTS.data) := by
  simp [Chunk.ID, h, CMessages, CThreadMessages, threadIDOf, idOf, stringsJoin,
    String.data_append, List.append_assoc,
    show ("t" : String).data = ['t'] from rfl,
    show (":" : String).data = [':'] from rfl]

theorem keyData_files (c : Chunk) (h : c.ctype = CFiles) :
    c.ID.data = 'f' :: (c.channelID.data ++ ':' :: c.parentTS.data) := by
  simp [Chunk.ID, h, CMessages, CThreadMessages, CFiles, idOf, stringsJoin,
    String.data_append, List.append_assoc,
    show ("f" : String).data = ['f'] from rfl,
    show (":" : String).data = [':'] from rfl]

theorem keyData_chanInfo (c : Chunk) (h : c.ctype = CChannelInfo) :
    c.ID.data = 'i' :: 'c' :: c.channelID.data := by
  simp [Chunk.ID, h, CMessages, CThreadMessages, CFiles, CChannelInfo,
    channelInfoIDOf, idOf, stringsJoin, String.data_append,
    show ("ic" : String).data = ['i', 'c'] from rfl]

theorem keyData_chanUsers (c : Chunk) (h : c.ctype = CChannelUsers) :
    c.ID.data = 'l' :: 'c' :: 'u' :: c.channelID.data := by
  simp [Chunk.ID, h, CMessages, CThreadMessages, CFiles, CChannelInfo,
    CChannelUsers, channelUsersIDOf, idOf, stringsJoin, String.data_append,
    show ("lcu" : String).data = ['l', 'c', 'u'] from rfl]

theorem keyData_bookmarks (c : Chunk) (h : c.ctype = CBookmarks) :
    c.ID.data = 'l' :: 'b' :: c.channelID.data := by
  simp [Chunk.ID, h, CMessages, CThreadMessages, CFiles, CChannelInfo,
    CChannelUsers, CUsers, CChannels, CWorkspaceInfo, CStarredItems, CBookmarks,
    idOf, stringsJoin, String.data_append,
    show ("lb" : String).data = ['l', 'b'] from rfl]

/-- Parsing a well-formed, non-static, supported chunk's key recovers
its addressing fields. -/
theorem decodeKey_ID (c : Chunk) (hg : isGoodChannelID c.channelID = true)
    (hlt : c.ctype < 10) (hs : isStaticType c.ctype = false) :
    decodeKey c.ID.data =
      some (c.ctype, c.channelID.data,
        (if c.ctype = CThreadMessages then c.parentThreadTS
         else if c.ctype = CFiles then c.parentTS else "").data) := by
  have hcol := goodChannelID_no_colon c.channelID hg
  have hhead := goodChannelID_head c.channelID hg
  rcases nonstatic_cases c.ctype hlt hs with h | h | h | h | h | h
  · -- Messages: the raw channel id
    rw [keyData_messages c (by simpa [CMessages] using h)]
    rcases hd : c.channelID.data with _ | ⟨a, l⟩
    · rw [hd] at hhead
      simp at hhead
    · rw [hd] at hhead
      simp at hhead
      have : a = 'C' ∨ a = 'D' ∨ a = 'G' := hhead
      simp [decodeKey, this, h, CThreadMessages, CFiles]
  · -- ThreadMessages
    rw [keyData_threads c (by simpa [CThreadMessages] using h)]
    simp [decodeKey, splitAtColon_append _ _ hcol, h, CThreadMessages]
  · -- Files
    rw [keyData_files c (by simpa [CFiles] using h)]
    simp [decodeKey, splitAtColon_append _ _ hcol, h, CThreadMessages, CFiles]
  · -- ChannelInfo
    rw [keyData_chanInfo c (by simpa [CChannelInfo] using h)]
    simp [decodeKey, h, CThreadMessages, CFiles]
  · -- ChannelUsers
    rw [keyData_chanUsers c (by simpa [CChannelUsers] using h)]
    simp [decodeKey, h, CThreadMessages, CFiles]
  · -- Bookmarks
    rw [keyData_bookmarks c (by simpa [CBookmarks] using h)]
    simp [decodeKey, h, CThreadMessages, CFiles]

theorem foldl_addMessage (ch : String) (ms : List Message) :
    ∀ a : StateLedger,
      ((ms.foldl (fun a m => a.addMessage ch m.timestamp) a).threads = a.threads) ∧
      ((ms.foldl (fun a m => a.addMessage ch m.timestamp) a).files = a.files) ∧
      (∀ x, x ∈ a.messages →
        x ∈ (ms.foldl (fun a m => a.addMessage ch m.timestamp) a).messages) ∧
      (∀ m ∈ ms, (ch, m.timestamp) ∈
        (ms.foldl (fun a m => a.addMessage ch m.timestamp) a).messages) := by
  induction ms with
  | nil => intro a; simp
  | cons m ms ih =>
    intro a
    obtain ⟨ht, hf, hmono, hins⟩ := ih (a.addMessage ch m.timestamp)
    refine ⟨?_, ?_, ?_, ?_⟩
    · simpa [StateLedger.addMessage] using ht
    · simpa [StateLedger.addMessage] using hf
    · intro x hx
      exact hmono x (by simp [StateLedger.addMessage, hx])
    · intro m' hm'
      rcases List.mem_cons.mp hm' with rfl | hm'
      · exact hmono _ (by simp [StateLedger.addMessage])
      · exact hins m' hm'

theorem foldl_addThread (ch pts : String) (ms : List Message) :
    ∀ a : StateLedger,
      ((ms.foldl (fun a m => a.addThread ch pts m.timestamp) a).messages = a.messages) ∧
      ((ms.foldl (fun a m => a.addThread ch pts m.timestamp) a).files = a.files) ∧
      (∀ x, x ∈ a.threads →
        x ∈ (ms.foldl (fun a m => a.addThread ch pts m.timestamp) a).threads) ∧
      (∀ m ∈ ms, ((ch, pts), m.timestamp) ∈
        (ms.foldl (fun a m => a.addThread ch pts m.timestamp) a).threads) := by
  induction ms with
  | nil => intro a; simp
  | cons m ms ih =>
    intro a
    obtain ⟨hm2, hf, hmono, hins⟩ := ih (a.addThread ch pts m.timestamp)
    refine ⟨?_, ?_, ?_, ?_⟩
    · simpa [StateLedger.addThread] using hm2
    · simpa [StateLedger.addThread] using hf
    · intro x hx
      exact hmono x (by simp [StateLedger.addThread, hx])
    · intro m' hm'
      rcases List.mem_cons.mp hm' with rfl | hm'
      · exact hmono _ (by simp [StateLedger.addThread])
      · exact hins m' hm'

theorem foldl_addFile (ch : String) (fs : List SFile) :
    ∀ a : StateLedger,
      ((fs.foldl (fun a f => a.addFile ch f.id "") a).messages = a.messages) ∧
      ((fs.foldl (fun a f => a.addFile ch f.id "") a).threads = a.threads) ∧
      (∀ x, x ∈ a.files →
        x ∈ (fs.foldl (fun a f => a.addFile ch f.id "") a).files) ∧
      (∀ f ∈ fs, (ch, f.id, "") ∈
        (fs.foldl (fun a f => a.addFile ch f.id "") a).files) := by
  induction fs with
  | nil => intro a; simp
  | cons f fs ih =>
    intro a
    obtain ⟨hm2, ht, hmono, hins⟩ := ih (a.addFile ch f.id "")
    refine ⟨?_, ?_, ?_, ?_⟩
    · simpa [StateLedger.addFile] using hm2
    · simpa [StateLedger.addFile] using ht
    · intro x hx
      exact hmono x (by simp [StateLedger.addFile, hx])
    · intro f' hf'
      rcases List.mem_cons.mp hf' with rfl | hf'
      · exact hmono _ (by simp [StateLedger.addFile])
      · exact hins f' hf'

/-- One `stateStep` keeps every existing ledger entry and inserts the
entries of its chunk according to the chunk's type. -/
theorem stateStep_mem (st : StateLedger) (c : Chunk) :
    ((∀ x, x ∈ st.messages → x ∈ (stateStep st c).messages) ∧
     (∀ x, x ∈ st.threads → x ∈ (stateStep st c).threads) ∧
     (∀ x, x ∈ st.files → x ∈ (stateStep st c).files)) ∧
    (c.ctype = CMessages → ∀ m ∈ c.messages,
      (c.channelID, m.timestamp) ∈ (stateStep st c).messages) ∧
    (c.ctype = CThreadMessages → ∀ m ∈ c.messages,
      ((c.channelID, c.parentThreadTS), m.timestamp) ∈ (stateStep st c).threads) ∧
    (c.ctype = CFiles → ∀ f ∈ c.files,
      (c.channelID, f.id, "") ∈ (stateStep st c).files) := by
  by_cases hF : c.ctype = CFiles
  · have hT : c.ctype ≠ CThreadMessages := by simp [hF, CFiles, CThreadMessages]
    have hM : c.ctype ≠ CMessages := by simp [hF, CFiles, CMessages]
    have hred : stateStep st c =
        c.files.foldl (fun a f => a.addFile c.channelID f.id "") st := by
      unfold stateStep
      simp [hF, CFiles, CThreadMessages, CMessages]
    obtain ⟨hm2, ht2, hmono, hins⟩ := foldl_addFile c.channelID c.files st
    rw [hred]
    exact ⟨⟨fun x hx => by rw [hm2]; exact hx, fun x hx => by rw [ht2]; exact hx,
        hmono⟩,
      fun h => absurd h hM, fun h => absurd h hT, fun _ => hins⟩
  · by_cases hT : c.ctype = CThreadMessages
    · have hM : c.ctype ≠ CMessages := by simp [hT, CThreadMessages, CMessages]
      have hred : stateStep st c =
          c.messages.foldl
            (fun a m => a.addThread c.channelID c.parentThreadTS m.timestamp) st := by
        unfold stateStep
        simp [hT, CFiles, CThreadMessages, CMessages]
      obtain ⟨hm2, hf2, hmono, hins⟩ :=
        foldl_addThread c.channelID c.parentThreadTS c.messages st
      rw [hred]
      exact ⟨⟨fun x hx => by rw [hm2]; exact hx, hmono,
          fun x hx => by rw [hf2]; exact hx⟩,
        fun h => absurd h hM, fun _ => hins, fun h => absurd h hF⟩
    · by_cases hM : c.ctype = CMessages
      · have hred : stateStep st c =
            c.messages.foldl (fun a m => a.addMessage c.channelID m.timestamp) st := by
          unfold stateStep
          simp [hM, CFiles, CThreadMessages, CMessages]
        obtain ⟨ht2, hf2, hmono, hins⟩ := foldl_addMessage c.channelID c.messages st
        rw [hred]
        exact ⟨⟨hmono, fun x hx => by rw [ht2]; exact hx,
            fun x hx => by rw [hf2]; exact hx⟩,
          fun _ => hins, fun h => absurd h hT, fun h => absurd h hF⟩
      · have hred : stateStep st c = st := by
          unfold stateStep
          simp [hF, hT, hM]
        rw [hred]
        exact ⟨⟨fun x hx => hx, fun x hx => hx, fun x hx => hx⟩,
          fun h => absurd h hM, fun h => absurd h hT, fun h => absurd h hF⟩

theorem foldl_stateStep_mono (s : List Chunk) :
    ∀ st : StateLedger,
      (∀ x, x ∈ st.messages → x ∈ (s.foldl stateStep st).messages) ∧
      (∀ x, x ∈ st.threads → x ∈ (s.foldl stateStep st).threads) ∧
      (∀ x, x ∈ st.files → x ∈ (s.foldl stateStep st).files) := by
  induction s with
  | nil => intro st; exact ⟨fun x hx => hx, fun x hx => hx, fun x hx => hx⟩
  | cons c cs ih =>
    intro st
    obtain ⟨hm, ht, hf⟩ := ih (stateStep st c)
    obtain ⟨⟨sm, st2, sf⟩, _⟩ := stateStep_mem st c
    exact ⟨fun x hx => hm x (sm x hx), fun x hx => ht x (st2 x hx),
      fun x hx => hf x (sf x hx)⟩

theorem foldl_stateStep_insert (s : List Chunk) (c : Chunk) :
    ∀ st : StateLedger, c ∈ s →
      ((c.ctype = CMessages → ∀ m ∈ c.messages,
        (c.channelID, m.timestamp) ∈ (s.foldl stateStep st).messages) ∧
       (c.ctype = CThreadMessages → ∀ m ∈ c.messages,
        ((c.channelID, c.parentThreadTS), m.timestamp) ∈ (s.foldl stateStep st).threads) ∧
       (c.ctype = CFiles → ∀ f ∈ c.files,
        (c.channelID, f.id, "") ∈ (s.foldl stateStep st).files)) := by
  induction s with
  | nil => intro st h; cases h
  | cons d ds ih =>
    intro st hc
    rcases List.mem_cons.mp hc with rfl | hc
    · obtain ⟨_, hM, hT, hF⟩ := stateStep_mem st c
      obtain ⟨mm, mt, mf⟩ := foldl_stateStep_mono ds (stateStep st c)
      exact ⟨fun h m hm => mm _ (hM h m hm), fun h m hm => mt _ (hT h m hm),
        fun h f hf => mf _ (hF h f hf)⟩
    · exact ih (stateStep st d) hc

theorem pointerInit_lastOffset (p : Player) (g : String) :
    (pointerInit p g).lastOffset = p.lastOffset := by
  unfold pointerInit
  rcases alookup g p.pointer <;> rfl

theorem tryGetChunk_notFound_inv (p : Player) (g : String)
    (h : (tryGetChunk p g).1 = Except.error PErr.notFound) :
    alookup g p.idx = none := by
  rcases hidx : alookup g p.idx with _ | offs
  · rfl
  · exfalso
    rcases hget : offs[cursorPos p g]? with _ | off
    · rw [tryGetChunk_eof p g offs hidx hget] at h
      simp at h
    · rcases hc : p.stream[off]? with _ | c
      · rw [tryGetChunk_decodeFail p g offs off hidx hget hc] at h
        simp at h
      · rw [tryGetChunk_ok p g offs off c hidx hget hc] at h
        simp at h

theorem tryGetChunk_eof_inv (p : Player) (g : String)
    (h : (tryGetChunk p g).1 = Except.error PErr.eof) :
    ∃ offs, alookup g p.idx = some offs ∧ offs[cursorPos p g]? = none := by
  rcases hidx : alookup g p.idx with _ | offs
  · rw [tryGetChunk_notFound p g hidx] at h
    simp at h
  · rcases hget : offs[cursorPos p g]? with _ | off
    · exact ⟨offs, rfl, hget⟩
    · exfalso
      rcases hc : p.stream[off]? with _ | c
      · rw [tryGetChunk_decodeFail p g offs off hidx hget hc] at h
        simp at h
      · rw [tryGetChunk_ok p g offs off c hidx hget hc] at h
        simp at h

theorem hasMore_idx_none (p : Player) (g : String)
    (h : alookup g p.idx = none) : hasMore p g = false := by
  simp [hasMore, h]

/-- After an exhausted read, `hasMore` for its key is false. -/
theorem hasMore_pointerInit_false (p : Player) (g : String) (offs : List Nat)
    (hidx : alookup g p.idx = some offs) (hget : offs[cursorPos p g]? = none) :
    hasMore (pointerInit p g) g = false := by
  have hlen : offs.length ≤ cursorPos p g := by
    simpa using List.getElem?_eq_none_iff.mp hget
  simp only [hasMore, pointerInit_idx, hidx, pointerInit_lookup]
  simp [Nat.not_lt.mpr hlen]

/-! ## Claims -/

/-- Claim C3, counterexample.  The claim says a `ThreadMessages` chunk for
channel `C1` with thread root timestamp `1000.001` is addressed by the
key `"t:C1:1000.001"` (`"t:" + channelID + ":" + parentThreadTS`).  The
source's `id` helper concatenates the bare tag `"t"` with the
colon-joined ids, so the actual key is `"tC1:1000.001"`, with no colon
between the tag and the channel id. -/
theorem thread_key_colon_cex :
    threadChunk1.ID = "tC1:1000.001" ∧ threadChunk1.ID ≠ "t:C1:1000.001" := by
  decide

/-- Claim C3, amended: the group key of a `ThreadMessages` chunk with
channel id `c` and parent thread timestamp `ts` is `"t" ++ c ++ ":" ++
ts` — tag and channel id are not colon-separated. -/
theorem thread_key_eq (c : Chunk) (m : Message)
    (ht : c.ctype = CThreadMessages) (hp : c.parent = some m) :
    c.ID = "t" ++ c.channelID ++ ":" ++ m.threadTimestamp := by
  simp [Chunk.ID, ht, CThreadMessages, CMessages, threadIDOf, idOf, stringsJoin,
    Chunk.parentThreadTS, hp, String.append_assoc]

/-- Witness for `thread_key_eq` at the concrete scenario-B record. -/
theorem thread_key_eq_witness :
    (threadChunk1.ctype = CThreadMessages ∧
      threadChunk1.parent = some { timestamp := "1000.001", threadTimestamp := "1000.001" }) ∧
    threadChunk1.ID =
      "t" ++ threadChunk1.channelID ++ ":" ++ ("1000.001" : String) :=
  ⟨⟨rfl, rfl⟩, thread_key_eq threadChunk1 _ rfl rfl⟩

/-- Claim C5, counterexample.  The claim says a `Chunk` whose `Type` is
outside the enumerated set yields an explicit addressing failure, never
a silent default key.  `Chunk.ID` cannot fail: its `switch` falls
through to `fmt.Sprintf("<unknown:%s>", c.Type)`, so the type 10 chunk
silently derives the usable default key below. -/
theorem unknown_type_default_cex :
    unknownChunk.ID = "<unknown:ChunkType(10)>" := by decide

/-- Claim C5, amended: for every chunk whose `Type` is outside the
enumerated set, the derivation silently produces the default sentinel
key `"<unknown:" ++ <type string> ++ ">"` — it does not fail. -/
theorem unknown_type_default (c : Chunk) (h : 10 ≤ c.ctype) :
    c.ID = "<unknown:" ++ chunkTypeStr c.ctype ++ ">" := by
  have h0 : c.ctype ≠ 0 := by omega
  have h1 : c.ctype ≠ 1 := by omega
  have h2 : c.ctype ≠ 2 := by omega
  have h3 : c.ctype ≠ 3 := by omega
  have h4 : c.ctype ≠ 4 := by omega
  have h5 : c.ctype ≠ 5 := by omega
  have h6 : c.ctype ≠ 6 := by omega
  have h7 : c.ctype ≠ 7 := by omega
  have h8 : c.ctype ≠ 8 := by omega
  have h9 : c.ctype ≠ 9 := by omega
  simp only [Chunk.ID, CMessages, CThreadMessages, CFiles, CUsers, CChannels,
    CChannelInfo, CWorkspaceInfo, CChannelUsers, CStarredItems, CBookmarks,
    h0, h1, h2, h3, h4, h5, h6, h7, h8, h9, if_false, ite_false]

/-- Witness for `unknown_type_default` at type 10. -/
theorem unknown_type_default_witness :
    10 ≤ unknownChunk.ctype ∧
      unknownChunk.ID = "<unknown:" ++ chunkTypeStr unknownChunk.ctype ++ ">" :=
  ⟨by decide, unknown_type_default unknownChunk (by decide)⟩

/-- Claim C7, confirmed: `hasMore` is true exactly when the key is in the
index and either was never accessed (absent from the cursor table) or
its cursor has not reached the end of its offset list; it is false
exactly when the key is absent from the index or fully exhausted. -/
theorem hasMore_iff (p : Player) (g : String) :
    (hasMore p g = true ↔
      ∃ offs, alookup g p.idx = some offs ∧
        (alookup g p.pointer = none ∨
          ∃ ptr, alookup g p.pointer = some ptr ∧ ptr < offs.length)) ∧
    (hasMore p g = false ↔
      (alookup g p.idx = none ∨
        ∃ offs ptr, alookup g p.idx = some offs ∧
          alookup g p.pointer = some ptr ∧ offs.length ≤ ptr)) := by
  unfold hasMore
  rcases hidx : alookup g p.idx with _ | offs <;>
    rcases hptr : alookup g p.pointer with _ | ptr <;>
      simp [hidx, hptr, Nat.not_lt]

/-- Claim C2, confirmed: for a key present in the index whose records are
all consumed (cursor at or past the end of the offset list), the next
access fails with the exhaustion error (`io.EOF`, the sentinel
`tryGetChunk` documents and `TestPlayer_Thread` expects) and not with
`ErrNotFound`; for a key absent from the index, the access fails with
`ErrNotFound` and not with the exhaustion error. -/
theorem exhaustion_distinctness (p : Player) (g : String) :
    (∀ offs, alookup g p.idx = some offs →
        offs.length ≤ cursorPos p g →
        ((tryGetChunk p g).1 = Except.error PErr.eof ∧
          (tryGetChunk p g).1 ≠ Except.error PErr.notFound)) ∧
    (alookup g p.idx = none →
      ((tryGetChunk p g).1 = Except.error PErr.notFound ∧
        (tryGetChunk p g).1 ≠ Except.error PErr.eof)) := by
  constructor
  · intro offs hidx hlen
    have hnone : offs[cursorPos p g]? = none := List.getElem?_eq_none hlen
    rw [tryGetChunk_eof p g offs hidx hnone]
    simp
  · intro hidx
    rw [tryGetChunk_notFound p g hidx]
    simp

/-- Witness for `exhaustion_distinctness`: both branches at a concrete
player — `C1` fully consumed, `zzz` never written. -/
theorem exhaustion_distinctness_witness :
    (alookup "C1" playerExhaustedC1.idx = some [0] ∧
      ([0] : List Nat).length ≤ cursorPos playerExhaustedC1 "C1" ∧
      alookup "zzz" playerExhaustedC1.idx = none) ∧
    ((tryGetChunk playerExhaustedC1 "C1").1 = Except.error PErr.eof ∧
      (tryGetChunk playerExhaustedC1 "C1").1 ≠ Except.error PErr.notFound) ∧
    ((tryGetChunk playerExhaustedC1 "zzz").1 = Except.error PErr.notFound ∧
      (tryGetChunk playerExhaustedC1 "zzz").1 ≠ Except.error PErr.eof) :=
  ⟨by decide,
    (exhaustion_distinctness playerExhaustedC1 "C1").1 [0] (by decide) (by decide),
    (exhaustion_distinctness playerExhaustedC1 "zzz").2 (by decide)⟩

/-- Claim C10, confirmed: whenever `tryGetChunk` returns an error — not
found, exhaustion, or a seek/decode failure — the key's cursor position
is not advanced, and an immediately repeated call for the same key
replays the same attempt and fails identically. -/
theorem cursor_unchanged_on_error (p : Player) (g : String) (e : PErr)
    (h : (tryGetChunk p g).1 = Except.error e) :
    cursorPos (tryGetChunk p g).2 g = cursorPos p g ∧
    (tryGetChunk (tryGetChunk p g).2 g).1 = Except.error e := by
  rcases hidx : alookup g p.idx with _ | offs
  · rw [tryGetChunk_notFound p g hidx] at h ⊢
    rw [tryGetChunk_notFound p g hidx]
    exact ⟨rfl, h⟩
  · rcases hget : offs[cursorPos p g]? with _ | off
    · -- exhausted: the state is only cursor-initialised
      rw [tryGetChunk_eof p g offs hidx hget] at h ⊢
      have hidx' : alookup g (pointerInit p g).idx = some offs := by
        rw [pointerInit_idx]; exact hidx
      have hget' : offs[cursorPos (pointerInit p g) g]? = none := by
        rw [pointerInit_cursorPos]; exact hget
      rw [tryGetChunk_eof (pointerInit p g) g offs hidx' hget']
      exact ⟨pointerInit_cursorPos p g, h⟩
    · rcases hc : p.stream[off]? with _ | c
      · -- decode failure: only cursor-initialised plus lastOffset
        rw [tryGetChunk_decodeFail p g offs off hidx hget hc] at h ⊢
        set q : Player := { pointerInit p g with lastOffset := off } with hq
        have hqptr : q.pointer = (pointerInit p g).pointer := rfl
        have hqcur : cursorPos q g = cursorPos p g := by
          unfold cursorPos
          rw [hqptr, pointerInit_lookup]
          rfl
        have hidx' : alookup g q.idx = some offs := by
          show alookup g (pointerInit p g).idx = some offs
          rw [pointerInit_idx]; exact hidx
        have hget' : offs[cursorPos q g]? = some off := by
          rw [hqcur]; exact hget
        have hc' : q.stream[off]? = none := by
          show (pointerInit p g).stream[off]? = none
          rw [pointerInit_stream]; exact hc
        rw [tryGetChunk_decodeFail q g offs off hidx' hget' hc']
        exact ⟨hqcur, h⟩
      · rw [tryGetChunk_ok p g offs off c hidx hget hc] at h
        simp at h

/-- Witness for `cursor_unchanged_on_error` at a concrete exhausted
key. -/
theorem cursor_unchanged_on_error_witness :
    (tryGetChunk playerExhaustedC1 "C1").1 = Except.error PErr.eof ∧
    (cursorPos (tryGetChunk playerExhaustedC1 "C1").2 "C1" =
        cursorPos playerExhaustedC1 "C1" ∧
      (tryGetChunk (tryGetChunk playerExhaustedC1 "C1").2 "C1").1 =
        Except.error PErr.eof) :=
  ⟨by decide, cursor_unchanged_on_error playerExhaustedC1 "C1" PErr.eof (by decide)⟩

/-- Claim C1, confirmed: round-trip.  For a stream of recorded chunks,
building the index (`NewPlayer`) and draining a group key that occurs in
the stream via `allForID` — repeated `tryGetChunk` until `io.EOF`,
concatenating the projected payload slices — returns exactly the
payload slices of the chunks bearing that key, in original write
order. -/
theorem recorder_player_roundTrip {α : Type} (fn : Chunk → List α)
    (s : List Chunk) (g : String) (hg : ∃ c ∈ s, c.ID = g) :
    (allForID fn (newPlayer s) g).1 =
      Except.ok (((s.filter (fun c => c.ID = g)).map fn).flatten) := by
  obtain ⟨c, hc, hcg⟩ := hg
  have hne : posOf g 0 s ≠ [] := posOf_ne_nil g s c hc hcg 0
  have hidx : alookup g (indexRecords s) = some (posOf g 0 s) :=
    alookup_indexRecords g s hne
  have hread : readAll s ((posOf g 0 s).drop 0) =
      some (s.filter (fun c => c.ID = g)) := by
    rw [List.drop_zero]
    exact readAll_posOf g s 0 s (by intro o; rw [Nat.zero_add])
  have hfuel : ((posOf g 0 s).drop 0).length < s.length + 1 := by
    rw [List.drop_zero]
    have := posOf_length_le g s 0
    omega
  have h := drainGo_fst fn g (posOf g 0 s) (s.length + 1) 0
    { stream := s, idx := indexRecords s, pointer := [], lastOffset := 0 }
    [] (s.filter (fun c => c.ID = g)) hidx (Or.inr ⟨rfl, rfl⟩) hread hfuel
  unfold allForID reset newPlayer
  simpa using h

/-- Witness for `recorder_player_roundTrip`: draining key `C1` of the
small recorded stream returns its three message payloads in write
order. -/
theorem recorder_player_roundTrip_witness :
    (∃ c ∈ roundTripStream, c.ID = "C1") ∧
    (allForID Chunk.messages (newPlayer roundTripStream) "C1").1 =
      Except.ok
        (((roundTripStream.filter (fun c => c.ID = "C1")).map
          Chunk.messages).flatten) :=
  ⟨by decide,
    recorder_player_roundTrip Chunk.messages roundTripStream "C1" (by decide)⟩

/-- Claim C4, counterexample.  The claim says two Chunks differing in their
addressing fields never derive the same key unless the type is static.
But the derivation is not injective over arbitrary channel ids: a
`Messages` chunk whose channel id is the string `tA:B` and a
`ThreadMessages` chunk for channel `A`, thread root `B`, derive the
same key `"tA:B"` while differing in type, channel and timestamp, and
neither type is static. -/
theorem groupid_collision_cex :
    collidingMessages.ID = collidingThread.ID ∧
    addrOf collidingMessages ≠ addrOf collidingThread ∧
    isStaticType collidingMessages.ctype = false ∧
    isStaticType collidingThread.ctype = false := by decide

/-- Claim C4, amended: the derivation is deterministic (a pure function
of the chunk), and it is injective on the addressing fields for chunks
with realistic channel ids — nonempty, starting with `C`, `D` or `G`,
colon-free — whose types are supported (within the enumeration) and not
static. -/
theorem groupid_det_injective :
    (∀ c : Chunk, c.ID = c.ID) ∧
    ∀ c1 c2 : Chunk,
      isGoodChannelID c1.channelID = true → isGoodChannelID c2.channelID = true →
      c1.ctype < 10 → c2.ctype < 10 →
      isStaticType c1.ctype = false → isStaticType c2.ctype = false →
      c1.ID = c2.ID → addrOf c1 = addrOf c2 := by
  refine ⟨fun c => rfl, ?_⟩
  intro c1 c2 hg1 hg2 hlt1 hlt2 hs1 hs2 hid
  have d1 := decodeKey_ID c1 hg1 hlt1 hs1
  have d2 := decodeKey_ID c2 hg2 hlt2 hs2
  rw [hid, d2] at d1
  simp only [Option.some.injEq, Prod.mk.injEq] at d1
  obtain ⟨hty, hch, hts⟩ := d1
  simp only [addrOf, Prod.mk.injEq]
  exact ⟨hty.symm, String.ext hch.symm, String.ext hts.symm⟩

/-- Witness for `groupid_det_injective` at two concrete well-formed
thread chunks. -/
theorem groupid_det_injective_witness :
    (isGoodChannelID threadChunk1.channelID = true ∧
      threadChunk1.ctype < 10 ∧ isStaticType threadChunk1.ctype = false ∧
      threadChunk1.ID = threadChunk1.ID) ∧
    addrOf threadChunk1 = addrOf threadChunk1 :=
  ⟨⟨by decide, by decide, by decide, rfl⟩,
    groupid_det_injective.2 threadChunk1 threadChunk1 (by decide) (by decide)
      (by decide) (by decide) (by decide) (by decide) rfl⟩

/-- Claim C8, code bug: the code evaluated at the failing input.  The
claim — like the spec and `AllChannelIDs`'s own doc comment ("returns
all the channels in the chunkfile") — wants only plain-channel keys,
every prefixed, static-list and info key excluded.  The filter drops
keys containing a colon or starting with `"ci"`, but the channel-info
prefix is `"ic"` (the `"ci"` test matches no key category), and the
static list keys and the bookmark/channel-users prefixes contain no
colon either: on a log with one Messages, one ChannelInfo and one Users
record, the info key `icC1` and the static users key `lusr` leak into
the supposed channel-id list. -/
theorem allChannelIDs_includes_nonchannels :
    allChannelIDs (newPlayer mixedStream) = ["C1", "icC1", "lusr"] := by rfl

/-- Claim C9, confirmed, with the `state` package modelled from the spec: building
the ledger from a log records, for every Messages chunk, each message
timestamp under its channel; for every ThreadMessages chunk, each reply
timestamp under its (channel, parent-thread) pair; for every Files
chunk, each file id under its channel with the empty local-path
placeholder. -/
theorem state_ledger_contents (s : List Chunk) (c : Chunk) (hc : c ∈ s) :
    (c.ctype = CMessages → ∀ m ∈ c.messages,
      (c.channelID, m.timestamp) ∈ (buildState s).messages) ∧
    (c.ctype = CThreadMessages → ∀ m ∈ c.messages,
      ((c.channelID, c.parentThreadTS), m.timestamp) ∈ (buildState s).threads) ∧
    (c.ctype = CFiles → ∀ f ∈ c.files,
      (c.channelID, f.id, "") ∈ (buildState s).files) := by
  unfold buildState
  exact foldl_stateStep_insert s c {} hc

/-- Witness for `state_ledger_contents`: concrete scenario C — the
ledger of a log with two `C1` Messages records (timestamps 1.0, 2.0)
and one Files record (file `F1`) holds both message timestamps and the
file with unknown local path. -/
theorem state_ledger_contents_witness :
    (msgsC1a ∈ scenarioCStream ∧ msgsC1b ∈ scenarioCStream ∧
      filesC1 ∈ scenarioCStream) ∧
    (("C1", "1.0") ∈ (buildState scenarioCStream).messages ∧
     ("C1", "2.0") ∈ (buildState scenarioCStream).messages ∧
     ("C1", "F1", "") ∈ (buildState scenarioCStream).files) :=
  ⟨⟨by decide, by decide, by decide⟩,
    (state_ledger_contents scenarioCStream msgsC1a (by decide)).1 rfl
      { timestamp := "1.0" } (by decide),
    (state_ledger_contents scenarioCStream msgsC1b (by decide)).1 rfl
      { timestamp := "2.0" } (by decide),
    (state_ledger_contents scenarioCStream filesC1 (by decide)).2.2 rfl
      { id := "F1" } (by decide)⟩

/-- Claim C6, counterexample.  The claim says every emulated endpoint
answers a not-found with a 404-equivalent and an exhausted with a
success envelope — never an error response.  `handleUsersList` does
neither: with its users record consumed it answers an envelope whose
`ok` flag is `false` (error `"pagination complete"`), and with no users
record at all it answers HTTP 500, not 404. -/
theorem replay_translation_cex :
    (tryGetChunk playerUsersExhausted userChunkID).1 = Except.error PErr.eof ∧
    (handleUsersList playerUsersExhausted).1 =
      HttpReply.body
        { sr := { ok := false, error := "pagination complete" }, users := [] } ∧
    (tryGetChunk emptyPlayer userChunkID).1 = Except.error PErr.notFound ∧
    (handleUsersList emptyPlayer).1 = HttpReply.serverError "not found" := by
  decide

/-- Claim C6, amended: of the five emulated endpoints, only
conversations-history follows the claimed translation on both error
kinds (not-found to 404, exhausted to a success envelope with no items
and pagination flag false).  The conversation-info endpoint answers
not-found with a 404 but exhausted with an HTTP 500; the replies
endpoint answers both exhausted and not-found with an HTTP 200 envelope
whose `ok` flag is false (`thread_not_found[channel:ts]` respectively
the player's error text); and the users/channel listing endpoints
answer exhausted with an `ok := false` envelope and not-found with an
HTTP 500. -/
theorem replay_error_translation (p : Player) (ch ts : String)
    (hch : ch ≠ "") (hts : ts ≠ "") :
    ((tryGetChunk p ch).1 = Except.error PErr.notFound →
      (handleConversationsHistory p ch).1 = HttpReply.notFound404) ∧
    ((tryGetChunk p ch).1 = Except.error PErr.eof →
      (handleConversationsHistory p ch).1 =
        HttpReply.body
          { sr := { ok := true }, hasMore := false, messages := [],
            nextCursor := "" }) ∧
    ((tryGetChunk p (channelInfoIDOf ch)).1 = Except.error PErr.notFound →
      (handleConversationsInfo p ch).1 = HttpReply.notFound404) ∧
    ((tryGetChunk p (channelInfoIDOf ch)).1 = Except.error PErr.eof →
      (handleConversationsInfo p ch).1 = HttpReply.serverError "EOF") ∧
    ((tryGetChunk p (threadIDOf ch ts)).1 = Except.error PErr.eof →
      (handleConversationsReplies p ch ts).1 =
        HttpReply.body
          { sr := { ok := false,
                    error := "thread_not_found[" ++ ch ++ ":" ++ ts ++ "]" },
            hasMore := false, messages := [],
            nextCursor := Nat.repr p.lastOffset }) ∧
    ((tryGetChunk p (threadIDOf ch ts)).1 = Except.error PErr.notFound →
      (handleConversationsReplies p ch ts).1 =
        HttpReply.body
          { sr := { ok := false, error := "not found" },
            hasMore := false, messages := [],
            nextCursor := Nat.repr p.lastOffset }) ∧
    ((tryGetChunk p userChunkID).1 = Except.error PErr.eof →
      (handleUsersList p).1 =
        HttpReply.body
          { sr := { ok := false, error := "pagination complete" },
            users := [] }) ∧
    ((tryGetChunk p userChunkID).1 = Except.error PErr.notFound →
      (handleUsersList p).1 = HttpReply.serverError "not found") ∧
    ((tryGetChunk p channelChunkID).1 = Except.error PErr.eof →
      (handleConversationsList p).1 =
        HttpReply.body
          { sr := { ok := false }, cursor := "", channels := [] }) ∧
    ((tryGetChunk p channelChunkID).1 = Except.error PErr.notFound →
      (handleConversationsList p).1 = HttpReply.serverError "not found") := by
  refine ⟨?_, ?_, ?_, ?_, ?_, ?_, ?_, ?_, ?_, ?_⟩
  · intro h
    have hidx := tryGetChunk_notFound_inv p ch h
    simp [handleConversationsHistory, hch, playerMessages,
      tryGetChunk_notFound p ch hidx]
  · intro h
    obtain ⟨offs, hidx, hget⟩ := tryGetChunk_eof_inv p ch h
    simp [handleConversationsHistory, hch, playerMessages,
      tryGetChunk_eof p ch offs hidx hget]
  · intro h
    have hidx := tryGetChunk_notFound_inv p (channelInfoIDOf ch) h
    simp [handleConversationsInfo, hch, playerChannelInfo,
      tryGetChunk_notFound p (channelInfoIDOf ch) hidx]
  · intro h
    obtain ⟨offs, hidx, hget⟩ := tryGetChunk_eof_inv p (channelInfoIDOf ch) h
    simp [handleConversationsInfo, hch, playerChannelInfo,
      tryGetChunk_eof p (channelInfoIDOf ch) offs hidx hget, errString]
  · intro h
    obtain ⟨offs, hidx, hget⟩ := tryGetChunk_eof_inv p (threadIDOf ch ts) h
    have hmf := hasMore_pointerInit_false p (threadIDOf ch ts) offs hidx hget
    simp [handleConversationsReplies, hts, playerThread,
      tryGetChunk_eof p (threadIDOf ch ts) offs hidx hget, hasMoreThreads, hmf,
      pointerInit_lastOffset]
  · intro h
    have hidx := tryGetChunk_notFound_inv p (threadIDOf ch ts) h
    simp [handleConversationsReplies, hts, playerThread,
      tryGetChunk_notFound p (threadIDOf ch ts) hidx, hasMoreThreads,
      hasMore_idx_none p (threadIDOf ch ts) hidx, errString]
  · intro h
    obtain ⟨offs, hidx, hget⟩ := tryGetChunk_eof_inv p userChunkID h
    simp [handleUsersList, playerUsers,
      tryGetChunk_eof p userChunkID offs hidx hget]
  · intro h
    have hidx := tryGetChunk_notFound_inv p userChunkID h
    simp [handleUsersList, playerUsers,
      tryGetChunk_notFound p userChunkID hidx, errString]
  · intro h
    obtain ⟨offs, hidx, hget⟩ := tryGetChunk_eof_inv p channelChunkID h
    simp [handleConversationsList, playerChannels,
      tryGetChunk_eof p channelChunkID offs hidx hget]
  · intro h
    have hidx := tryGetChunk_notFound_inv p channelChunkID h
    simp [handleConversationsList, playerChannels,
      tryGetChunk_notFound p channelChunkID hidx, errString]

/-- Witness for `replay_error_translation` at a concrete player and
request parameters. -/
theorem replay_error_translation_witness :
    (("C1" : String) ≠ "" ∧ ("1.0" : String) ≠ "") ∧
    (((tryGetChunk playerUsersExhausted "C1").1 = Except.error PErr.notFound →
      (handleConversationsHistory playerUsersExhausted "C1").1 =
        HttpReply.notFound404) ∧
    ((tryGetChunk playerUsersExhausted "C1").1 = Except.error PErr.eof →
      (handleConversationsHistory playerUsersExhausted "C1").1 =
        HttpReply.body
          { sr := { ok := true }, hasMore := false, messages := [],
            nextCursor := "" }) ∧
    ((tryGetChunk playerUsersExhausted (channelInfoIDOf "C1")).1 =
        Except.error PErr.notFound →
      (handleConversationsInfo playerUsersExhausted "C1").1 =
        HttpReply.notFound404) ∧
    ((tryGetChunk playerUsersExhausted (channelInfoIDOf "C1")).1 =
        Except.error PErr.eof →
      (handleConversationsInfo playerUsersExhausted "C1").1 =
        HttpReply.serverError "EOF") ∧
    ((tryGetChunk playerUsersExhausted (threadIDOf "C1" "1.0")).1 =
        Except.error PErr.eof →
      (handleConversationsReplies playerUsersExhausted "C1" "1.0").1 =
        HttpReply.body
          { sr := { ok := false,
                    error := "thread_not_found[" ++ "C1" ++ ":" ++ "1.0" ++ "]" },
            hasMore := false, messages := [],
            nextCursor := Nat.repr playerUsersExhausted.lastOffset }) ∧
    ((tryGetChunk playerUsersExhausted (threadIDOf "C1" "1.0")).1 =
        Except.error PErr.notFound →
      (handleConversationsReplies playerUsersExhausted "C1" "1.0").1 =
        HttpReply.body
          { sr := { ok := false, error := "not found" },
            hasMore := false, messages := [],
            nextCursor := Nat.repr playerUsersExhausted.lastOffset }) ∧
    ((tryGetChunk playerUsersExhausted userChunkID).1 = Except.error PErr.eof →
      (handleUsersList playerUsersExhausted).1 =
        HttpReply.body
          { sr := { ok := false, error := "pagination complete" },
            users := [] }) ∧
    ((tryGetChunk playerUsersExhausted userChunkID).1 =
        Except.error PErr.notFound →
      (handleUsersList playerUsersExhausted).1 =
        HttpReply.serverError "not found") ∧
    ((tryGetChunk playerUsersExhausted channelChunkID).1 =
        Except.error PErr.eof →
      (handleConversationsList playerUsersExhausted).1 =
        HttpReply.body
          { sr := { ok := false }, cursor := "", channels := [] }) ∧
    ((tryGetChunk playerUsersExhausted channelChunkID).1 =
        Except.error PErr.notFound →
      (handleConversationsList playerUsersExhausted).1 =
        HttpReply.serverError "not found")) :=
  ⟨⟨by decide, by decide⟩,
    replay_error_translation playerUsersExhausted "C1" "1.0"
      (by decide) (by decide)⟩

end Slackdump
